import Mathlib

/-!
Verification of the command-menu matcher (`getFilteredIcons` in
`web/src/components/command-menu.tsx`).

The source is a single pure TypeScript function over an in-memory list of
icon records.  We embed it shallowly:

* JS numbers become `ℚ` (the arithmetic the function performs — the
  weights 2.0 and 1.8, the threshold 0.3, `Math.max`, and comparisons — is
  exact on these small decimal values, so `ℚ` is faithful);
* `fuzzySearch` is imported from `@/lib/utils`, outside the sources at
  hand, so the embedding is parameterised by an arbitrary function
  `fuzzy : String → String → ℚ` — every theorem holds for all of them;
* the JS array methods `map`, `filter`, `sort`, `slice` become `List.map`,
  `List.filter`, a stable sort, `List.take`.  `Array.prototype.sort` is
  specified (ES2019+) to be stable; we model it by Mathlib's
  `List.insertionSort`, which is stable, with the comparator
  `(a, b) => b.score - a.score`, i.e. the total preorder `b.score ≤ a.score`.
-/

/-- The icon's `data` payload as the component reads it: only the
`categories` and `aliases` fields are ever consulted. -/
structure IconData where
  categories : List String
  aliases : List String
  deriving Repr, DecidableEq

/-- One entry of the `icons` prop: a name plus its data payload. -/
structure Icon where
  name : String
  data : IconData
  deriving Repr, DecidableEq

/-- The intermediate scored record built inside `getFilteredIcons`:
`{ icon, score, matchedField }`. -/
structure ScoredIcon where
  icon : Icon
  score : ℚ
  matchedField : String
  deriving Repr, DecidableEq

/-- Model of `Math.max` on two JS numbers: the larger argument.  (Stated with `if`
so that it evaluates by kernel reduction; `qmax_eq_max` below identifies it
with the lattice `max` on `ℚ`.) -/
def qmax (x y : ℚ) : ℚ := if x ≤ y then y else x


/-- Model of `Math.max(...list)` on a non-empty spread list; the `[]` case never
arises in the source because each use is guarded by `length > 0`. -/
def listMax : List ℚ → ℚ
  | [] => 0
  | x :: xs => xs.foldl qmax x

/-- The name score `fuzzySearch(icon.name, query) * 2.0`. -/
def nameScore (fuzzy : String → String → ℚ) (query : String) (icon : Icon) : ℚ :=
  fuzzy icon.name query * 2.0

/-- The alias score `icon.data.aliases.length > 0 ? Math.max(...aliases.map(a => fuzzySearch(a, query))) * 1.8 : 0`. -/
def aliasScore (fuzzy : String → String → ℚ) (query : String) (icon : Icon) : ℚ :=
  if 0 < icon.data.aliases.length then
    listMax (icon.data.aliases.map (fun al => fuzzy al query)) * 1.8
  else 0

/-- The category score `icon.data.categories.length > 0 ? Math.max(...categories.map(c => fuzzySearch(c, query))) : 0`. -/
def categoryScore (fuzzy : String → String → ℚ) (query : String) (icon : Icon) : ℚ :=
  if 0 < icon.data.categories.length then
    listMax (icon.data.categories.map (fun category => fuzzy category query))
  else 0

/-- The body of the `iconList.map(...)` callback: builds
`{ icon, score: Math.max(nameScore, aliasScore, categoryScore),
   matchedField: score === nameScore ? "name" : score === aliasScore ? "alias" : "category" }`. -/
def scoreIcon (fuzzy : String → String → ℚ) (query : String) (icon : Icon) : ScoredIcon :=
  let n := nameScore fuzzy query icon
  let a := aliasScore fuzzy query icon
  let c := categoryScore fuzzy query icon
  let score := qmax (qmax n a) c
  { icon := icon
    score := score
    matchedField := if score = n then "name" else if score = a then "alias" else "category" }

/-- The scored list `const scoredIcons = iconList.map(icon => ...)`. -/
def scoredIcons (fuzzy : String → String → ℚ) (iconList : List Icon) (query : String) :
    List ScoredIcon :=
  iconList.map (scoreIcon fuzzy query)

/-- The sort comparator `(a, b) => b.score - a.score` as the total preorder
it realises: `a` precedes `b` when `b.score ≤ a.score`. -/
def scoreLE (a b : ScoredIcon) : Prop := b.score ≤ a.score

instance : DecidableRel scoreLE := fun a b => inferInstanceAs (Decidable (b.score ≤ a.score))

instance : IsTotal ScoredIcon scoreLE := ⟨fun a b => le_total b.score a.score⟩

instance : IsTrans ScoredIcon scoreLE := ⟨fun _ _ _ h h' => le_trans h' h⟩

/-- The matcher `getFilteredIcons(iconList, query)`.  Empty query: `iconList.slice(0, 8)`.
Otherwise score every icon, `filter(item => item.score > 0.3)`, stable-sort
descending by score, `slice(0, 20)`, and project back to the icons. -/
def getFilteredIcons (fuzzy : String → String → ℚ) (iconList : List Icon) (query : String) :
    List Icon :=
  if query = "" then
    iconList.take 8
  else
    (((((scoredIcons fuzzy iconList query).filter
          (fun item => decide ((0.3 : ℚ) < item.score))).insertionSort scoreLE).take 20).map
      (fun item => item.icon))

/-- The comparator lifted to position-tagged scored records; it ignores the
position, exactly as `(a, b) => b.score - a.score` does. -/
def scoreLEIdx (a b : Nat × ScoredIcon) : Prop := b.2.score ≤ a.2.score

instance : DecidableRel scoreLEIdx :=
  fun a b => inferInstanceAs (Decidable (b.2.score ≤ a.2.score))

instance : IsTotal (Nat × ScoredIcon) scoreLEIdx := ⟨fun a b => le_total b.2.score a.2.score⟩

instance : IsTrans (Nat × ScoredIcon) scoreLEIdx := ⟨fun _ _ _ h h' => le_trans h' h⟩

/-- Position-tagged run of the scoring, filtering and sorting steps of
`getFilteredIcons` (everything before `slice(0, 20)` and the projection
back to icons). -/
def rankedIcons (fuzzy : String → String → ℚ) (iconList : List Icon) (query : String) :
    List (Nat × ScoredIcon) :=
  ((scoredIcons fuzzy iconList query).enum.filter
      (fun p => decide ((0.3 : ℚ) < p.2.score))).insertionSort scoreLEIdx

/-- Stability target: whenever two entries of the sorted list carry equal
scores, the one taken from the earlier input position comes first. -/
def tieIdx (a b : Nat × ScoredIcon) : Prop := a.2.score = b.2.score → a.1 < b.1

/-- Twenty-one distinct record names for exercising the 20-result cap. -/
def cexNames : List String :=
  ["a", "b", "c", "d", "e", "f", "g", "h", "i", "j",
   "k", "l", "m", "n", "o", "p", "q", "r", "s", "t", "u"]

/-- Twenty-one distinct records with no aliases and no categories. -/
def cexIcons : List Icon := cexNames.map (fun s => ⟨s, ⟨[], []⟩⟩)

example :
    getFilteredIcons (fun _ _ => 1) [⟨"github", ⟨["dev"], ["git"]⟩⟩] "" =
      [⟨"github", ⟨["dev"], ["git"]⟩⟩] := by decide

example : (scoreIcon (fun _ _ => 1) "git" ⟨"github", ⟨["dev"], ["git"]⟩⟩).score = 2 := by
  norm_num [scoreIcon, nameScore, aliasScore, categoryScore, listMax, qmax]

example : (scoreIcon (fun _ _ => 1) "git" ⟨"github", ⟨["dev"], ["git"]⟩⟩).matchedField = "name" := by
  norm_num [scoreIcon, nameScore, aliasScore, categoryScore, listMax, qmax]

/-! ### Elementary facts about `qmax` and `listMax` -/

theorem qmax_eq_max (x y : ℚ) : qmax x y = max x y := by
  unfold qmax
  rcases le_total x y with h | h
  · rw [if_pos h, max_eq_right h]
  · rcases eq_or_lt_of_le h with rfl | h'
    · simp
    · rw [if_neg (not_le_of_lt h'), max_eq_left h]

theorem qmax_choice (x y : ℚ) : qmax x y = x ∨ qmax x y = y := by
  unfold qmax; split_ifs <;> simp

theorem le_qmax_left (x y : ℚ) : x ≤ qmax x y := by
  rw [qmax_eq_max]; exact le_max_left x y

theorem le_qmax_right (x y : ℚ) : y ≤ qmax x y := by
  rw [qmax_eq_max]; exact le_max_right x y

theorem qmax_le {x y b : ℚ} (hx : x ≤ b) (hy : y ≤ b) : qmax x y ≤ b := by
  rw [qmax_eq_max]; exact max_le hx hy

theorem le_foldl_qmax (l : List ℚ) (x : ℚ) : x ≤ l.foldl qmax x := by
  induction l generalizing x with
  | nil => exact le_refl x
  | cons a l ih => exact le_trans (le_qmax_left x a) (ih (qmax x a))

theorem foldl_qmax_mem (l : List ℚ) (x : ℚ) : l.foldl qmax x = x ∨ l.foldl qmax x ∈ l := by
  induction l generalizing x with
  | nil => exact Or.inl rfl
  | cons a l ih =>
    rcases ih (qmax x a) with h | h
    · rcases qmax_choice x a with h' | h'
      · exact Or.inl (by rw [List.foldl_cons, h, h'])
      · exact Or.inr (by rw [List.foldl_cons, h, h']; exact List.mem_cons_self a l)
    · exact Or.inr (List.mem_cons_of_mem a h)

theorem mem_le_foldl_qmax {y : ℚ} {l : List ℚ} (x : ℚ) (hy : y ∈ l) : y ≤ l.foldl qmax x := by
  induction l generalizing x with
  | nil => cases hy
  | cons a l ih =>
    rcases List.mem_cons.1 hy with rfl | h
    · exact le_trans (le_qmax_right x y) (le_foldl_qmax l (qmax x y))
    · exact ih (qmax x a) h

theorem listMax_mem {l : List ℚ} (h : l ≠ []) : listMax l ∈ l := by
  cases l with
  | nil => exact absurd rfl h
  | cons x xs =>
    rcases foldl_qmax_mem xs x with h' | h'
    · rw [listMax, h']; exact List.mem_cons_self x xs
    · exact List.mem_cons_of_mem x h'

theorem le_listMax {y : ℚ} {l : List ℚ} (hy : y ∈ l) : y ≤ listMax l := by
  cases l with
  | nil => cases hy
  | cons x xs =>
    rcases List.mem_cons.1 hy with rfl | h
    · exact le_foldl_qmax xs y
    · exact mem_le_foldl_qmax x h

/-! ### The intermediate pipeline with input positions attached

To state stability of the sort we run the very same filter-and-sort pipeline
on the scored list with each record's input position attached (the position
is invisible to the comparator, exactly as in the source, where the stable
`Array.prototype.sort` keeps equal-score records in input order). -/


theorem rankedIcons_map_snd (fuzzy : String → String → ℚ) (iconList : List Icon) (query : String) :
    (rankedIcons fuzzy iconList query).map Prod.snd =
      ((scoredIcons fuzzy iconList query).filter
          (fun item => decide ((0.3 : ℚ) < item.score))).insertionSort scoreLE := by
  unfold rankedIcons
  rw [List.map_insertionSort scoreLEIdx scoreLE Prod.snd
    ((scoredIcons fuzzy iconList query).enum.filter (fun p => decide ((0.3 : ℚ) < p.2.score)))
    (fun _ _ _ _ => Iff.rfl)]
  congr 1
  have h := List.filter_map (Prod.snd : Nat × ScoredIcon → ScoredIcon)
    (scoredIcons fuzzy iconList query).enum
    (p := fun item => decide ((0.3 : ℚ) < item.score))
  rw [List.enum_map_snd] at h
  exact h.symm

theorem getFilteredIcons_eq_ranked (fuzzy : String → String → ℚ) (iconList : List Icon)
    (query : String) (hq : query ≠ "") :
    getFilteredIcons fuzzy iconList query =
      ((rankedIcons fuzzy iconList query).take 20).map (fun p => p.2.icon) := by
  unfold getFilteredIcons
  rw [if_neg hq, ← rankedIcons_map_snd, ← List.map_take]
  rw [List.map_map]
  rfl


theorem orderedInsert_tie_pairwise (x : Nat × ScoredIcon) :
    ∀ s : List (Nat × ScoredIcon), s.Pairwise tieIdx → s.Pairwise scoreLEIdx →
      (∀ b ∈ s, x.1 < b.1) → (s.orderedInsert scoreLEIdx x).Pairwise tieIdx
  | [], _, _, _ => List.pairwise_singleton tieIdx x
  | b :: t, htie, hsort, hidx => by
    rw [List.orderedInsert]
    split_ifs with hr
    · refine List.Pairwise.cons ?_ htie
      intro c hc _
      exact hidx c hc
    · have hxb : x.2.score < b.2.score := lt_of_not_le hr
      rcases List.pairwise_cons.1 htie with ⟨htieb, htiet⟩
      rcases List.pairwise_cons.1 hsort with ⟨hsortb, hsortt⟩
      refine List.Pairwise.cons ?_ ?_
      · intro c hc
        rcases (List.mem_orderedInsert scoreLEIdx).1 hc with rfl | hct
        · intro heq
          exact absurd heq.symm (ne_of_lt hxb)
        · exact htieb c hct
      · exact orderedInsert_tie_pairwise x t htiet hsortt fun c hc => hidx c (List.mem_cons_of_mem b hc)

theorem insertionSort_tie_pairwise :
    ∀ l : List (Nat × ScoredIcon), l.Pairwise (fun a b => a.1 < b.1) →
      (l.insertionSort scoreLEIdx).Pairwise tieIdx
  | [], _ => List.Pairwise.nil
  | x :: xs, h => by
    rcases List.pairwise_cons.1 h with ⟨hx, hxs⟩
    rw [List.insertionSort]
    refine orderedInsert_tie_pairwise x (xs.insertionSort scoreLEIdx)
      (insertionSort_tie_pairwise xs hxs) (List.sorted_insertionSort scoreLEIdx xs) ?_
    intro b hb
    exact hx b ((List.mem_insertionSort scoreLEIdx).1 hb)

theorem enumFrom_fst_pairwise {α : Type _} :
    ∀ (n : Nat) (l : List α), (l.enumFrom n).Pairwise (fun a b => a.1 < b.1)
  | _, [] => List.Pairwise.nil
  | n, x :: xs => by
    rw [List.enumFrom]
    refine List.Pairwise.cons ?_ (enumFrom_fst_pairwise (n + 1) xs)
    intro b hb
    exact lt_of_lt_of_le (Nat.lt_succ_self n) (List.le_fst_of_mem_enumFrom hb)

theorem rankedIcons_sorted (fuzzy : String → String → ℚ) (iconList : List Icon) (query : String) :
    (rankedIcons fuzzy iconList query).Pairwise scoreLEIdx :=
  List.sorted_insertionSort scoreLEIdx _

theorem rankedIcons_stable (fuzzy : String → String → ℚ) (iconList : List Icon) (query : String) :
    (rankedIcons fuzzy iconList query).Pairwise tieIdx := by
  unfold rankedIcons
  refine insertionSort_tie_pairwise _ ?_
  refine List.Pairwise.sublist (List.filter_sublist _) ?_
  exact enumFrom_fst_pairwise 0 (scoredIcons fuzzy iconList query)

theorem mem_rankedIcons {fuzzy : String → String → ℚ} {iconList : List Icon} {query : String}
    {p : Nat × ScoredIcon} (hp : p ∈ rankedIcons fuzzy iconList query) :
    (0.3 : ℚ) < p.2.score ∧ ∃ r, iconList[p.1]? = some r ∧ p.2 = scoreIcon fuzzy query r := by
  unfold rankedIcons at hp
  replace hp := (List.mem_insertionSort scoreLEIdx).1 hp
  rcases List.mem_filter.1 hp with ⟨hmem, hscore⟩
  refine ⟨of_decide_eq_true hscore, ?_⟩
  have h := List.mem_enum_iff_getElem?.1 hmem
  rw [scoredIcons, List.getElem?_map] at h
  cases hr : iconList[p.1]? with
  | none => rw [hr] at h; cases h
  | some r =>
    rw [hr] at h
    exact ⟨r, rfl, (Option.some_injective _ h).symm⟩

theorem scoreIcon_icon (fuzzy : String → String → ℚ) (query : String) (r : Icon) :
    (scoreIcon fuzzy query r).icon = r := rfl

/-- Claim C2: for every input list and non-empty query the result is sorted in
non-increasing score order, and the sort is stable: the position-tagged run of
the same pipeline (whose projection is exactly the result before the 20-cut)
is pairwise non-increasing in score, equal-score entries keep their input
order, and each entry is the scored copy of the input record at its tag. -/
theorem matcher_sorted_and_stable (fuzzy : String → String → ℚ) (iconList : List Icon)
    (query : String) (hq : query ≠ "") :
    getFilteredIcons fuzzy iconList query =
        ((rankedIcons fuzzy iconList query).take 20).map (fun p => p.2.icon)
    ∧ (getFilteredIcons fuzzy iconList query).Pairwise
        (fun a b => (scoreIcon fuzzy query b).score ≤ (scoreIcon fuzzy query a).score)
    ∧ (rankedIcons fuzzy iconList query).Pairwise scoreLEIdx
    ∧ (rankedIcons fuzzy iconList query).Pairwise tieIdx
    ∧ ∀ p ∈ rankedIcons fuzzy iconList query,
        ∃ r, iconList[p.1]? = some r ∧ p.2 = scoreIcon fuzzy query r := by
  refine ⟨getFilteredIcons_eq_ranked fuzzy iconList query hq, ?_,
    rankedIcons_sorted fuzzy iconList query, rankedIcons_stable fuzzy iconList query,
    fun p hp => (mem_rankedIcons hp).2⟩
  rw [getFilteredIcons_eq_ranked fuzzy iconList query hq, List.pairwise_map]
  have hsorted : ((rankedIcons fuzzy iconList query).take 20).Pairwise scoreLEIdx :=
    List.Pairwise.sublist (List.take_sublist 20 _) (rankedIcons_sorted fuzzy iconList query)
  refine List.Pairwise.imp_of_mem ?_ hsorted
  intro a b ha hb hab
  obtain ⟨ra, hra, ha2⟩ := (mem_rankedIcons (List.mem_of_mem_take ha)).2
  obtain ⟨rb, hrb, hb2⟩ := (mem_rankedIcons (List.mem_of_mem_take hb)).2
  have hab' : b.2.score ≤ a.2.score := hab
  rw [ha2, hb2] at hab'
  rw [ha2, hb2, scoreIcon_icon, scoreIcon_icon]
  exact hab'

/-- Witness for C2 at a concrete input. -/
theorem matcher_sorted_and_stable_witness :
    (rankedIcons (fun _ _ => 1) [⟨"github", ⟨["dev"], ["git"]⟩⟩] "git").Pairwise tieIdx :=
  (matcher_sorted_and_stable (fun _ _ => 1) [⟨"github", ⟨["dev"], ["git"]⟩⟩] "git"
    (by decide)).2.2.2.1

/-- Claim C4: the result never holds more than 20 records, and never more
than 8 when the query is empty. -/
theorem matcher_result_bounded (fuzzy : String → String → ℚ) (iconList : List Icon)
    (query : String) :
    (getFilteredIcons fuzzy iconList query).length ≤ 20
    ∧ (query = "" → (getFilteredIcons fuzzy iconList query).length ≤ 8) := by
  by_cases hq : query = ""
  · subst hq
    unfold getFilteredIcons
    rw [if_pos rfl]
    exact ⟨le_trans (List.length_take_le 8 iconList) (by norm_num),
      fun _ => List.length_take_le 8 iconList⟩
  · unfold getFilteredIcons
    rw [if_neg hq]
    refine ⟨?_, fun h => absurd h hq⟩
    rw [List.length_map]
    exact List.length_take_le 20 _

/-- Witness for C4 at a concrete input. -/
theorem matcher_result_bounded_witness :
    (getFilteredIcons (fun _ _ => 1) [⟨"github", ⟨["dev"], ["git"]⟩⟩] "").length ≤ 8 :=
  (matcher_result_bounded (fun _ _ => 1) [⟨"github", ⟨["dev"], ["git"]⟩⟩] "").2 rfl

/-- Claim C5: with the empty query the function returns the first 8 input
records, in input order, for every fuzzy function (so no scoring can have
influenced the outcome). -/
theorem matcher_empty_query (fuzzy : String → String → ℚ) (iconList : List Icon) :
    getFilteredIcons fuzzy iconList "" = iconList.take 8 := by
  unfold getFilteredIcons
  rw [if_pos rfl]

/-- Claim C9: the matcher is a pure function of the fuzzy function, the input
list and the query: runs on identical inputs return identical results. -/
theorem matcher_deterministic (fuzzy₁ fuzzy₂ : String → String → ℚ) (l₁ l₂ : List Icon)
    (q₁ q₂ : String) (hf : fuzzy₁ = fuzzy₂) (hl : l₁ = l₂) (hq : q₁ = q₂) :
    getFilteredIcons fuzzy₁ l₁ q₁ = getFilteredIcons fuzzy₂ l₂ q₂ := by
  subst hf; subst hl; subst hq; rfl

/-- Witness for C9 at a concrete input. -/
theorem matcher_deterministic_witness :
    getFilteredIcons (fun _ _ => 1) [⟨"github", ⟨["dev"], ["git"]⟩⟩] "git" =
      getFilteredIcons (fun _ _ => 1) [⟨"github", ⟨["dev"], ["git"]⟩⟩] "git" :=
  matcher_deterministic (fun _ _ => 1) (fun _ _ => 1) _ _ "git" "git" rfl rfl rfl

/-- Claim C8: no error outcomes: the empty input list yields `[]` for every
query, and a query no record matches above the threshold yields `[]`, both as
ordinary return values of the total function. -/
theorem matcher_no_failure (fuzzy : String → String → ℚ) (iconList : List Icon)
    (query : String) :
    getFilteredIcons fuzzy [] query = []
    ∧ (query ≠ "" →
        (∀ r ∈ iconList, ¬ ((0.3 : ℚ) < (scoreIcon fuzzy query r).score)) →
        getFilteredIcons fuzzy iconList query = []) := by
  constructor
  · by_cases hq : query = ""
    · subst hq; unfold getFilteredIcons; rw [if_pos rfl]; rfl
    · unfold getFilteredIcons
      rw [if_neg hq]
      rfl
  · intro hq hnone
    unfold getFilteredIcons
    rw [if_neg hq]
    have hfil : (scoredIcons fuzzy iconList query).filter
        (fun item => decide ((0.3 : ℚ) < item.score)) = [] := by
      rw [List.filter_eq_nil_iff]
      intro a ha
      obtain ⟨r, hr, rfl⟩ := List.mem_map.1 ha
      simpa using hnone r hr
    rw [hfil]
    rfl

/-- Witness for C8 at a concrete input: a query nothing matches. -/
theorem matcher_no_failure_witness :
    getFilteredIcons (fun _ _ => 0) [⟨"github", ⟨["dev"], ["git"]⟩⟩] "zzz-nomatch" = [] := by
  refine (matcher_no_failure (fun _ _ => 0) [⟨"github", ⟨["dev"], ["git"]⟩⟩]
    "zzz-nomatch").2 (by decide) ?_
  intro r hr
  rcases List.mem_singleton.1 hr with rfl
  norm_num [scoreIcon, nameScore, aliasScore, categoryScore, listMax, qmax]

/-- Claim C1: the record's score is the maximum of the three field scores,
where the name score doubles the fuzzy value on the name, the alias score is
1.8 times the best fuzzy value over the aliases (0 with no aliases), and the
category score is the best fuzzy value over the categories (0 with none). -/
theorem matcher_score_is_field_max (fuzzy : String → String → ℚ) (query : String) (r : Icon)
    (hq : query ≠ "") :
    (scoreIcon fuzzy query r).score =
        max (max (nameScore fuzzy query r) (aliasScore fuzzy query r))
          (categoryScore fuzzy query r)
    ∧ nameScore fuzzy query r = fuzzy r.name query * 2
    ∧ (r.data.aliases = [] → aliasScore fuzzy query r = 0)
    ∧ (r.data.aliases ≠ [] → ∃ a ∈ r.data.aliases,
        aliasScore fuzzy query r = fuzzy a query * 1.8
        ∧ ∀ b ∈ r.data.aliases, fuzzy b query * 1.8 ≤ aliasScore fuzzy query r)
    ∧ (r.data.categories = [] → categoryScore fuzzy query r = 0)
    ∧ (r.data.categories ≠ [] → ∃ c ∈ r.data.categories,
        categoryScore fuzzy query r = fuzzy c query
        ∧ ∀ d ∈ r.data.categories, fuzzy d query ≤ categoryScore fuzzy query r) := by
  refine ⟨?_, ?_, ?_, ?_, ?_, ?_⟩
  · have hs : (scoreIcon fuzzy query r).score =
        qmax (qmax (nameScore fuzzy query r) (aliasScore fuzzy query r))
          (categoryScore fuzzy query r) := rfl
    rw [hs, qmax_eq_max, qmax_eq_max]
  · unfold nameScore; norm_num
  · intro h; simp [aliasScore, h]
  · intro h
    have hlen : 0 < r.data.aliases.length := List.length_pos.2 h
    have hmapne : r.data.aliases.map (fun al => fuzzy al query) ≠ [] := by
      simpa using h
    have hmem := listMax_mem hmapne
    obtain ⟨a, ha, heq⟩ := List.mem_map.1 hmem
    have hval : aliasScore fuzzy query r =
        listMax (r.data.aliases.map (fun al => fuzzy al query)) * 1.8 := by
      unfold aliasScore; rw [if_pos hlen]
    refine ⟨a, ha, by rw [hval, heq], ?_⟩
    intro b hb
    rw [hval]
    have hble : fuzzy b query ≤ listMax (r.data.aliases.map (fun al => fuzzy al query)) :=
      le_listMax (List.mem_map_of_mem _ hb)
    nlinarith
  · intro h; simp [categoryScore, h]
  · intro h
    have hlen : 0 < r.data.categories.length := List.length_pos.2 h
    have hmapne : r.data.categories.map (fun category => fuzzy category query) ≠ [] := by
      simpa using h
    have hmem := listMax_mem hmapne
    obtain ⟨c, hc, heq⟩ := List.mem_map.1 hmem
    have hval : categoryScore fuzzy query r =
        listMax (r.data.categories.map (fun category => fuzzy category query)) := by
      unfold categoryScore; rw [if_pos hlen]
    refine ⟨c, hc, by rw [hval, heq], ?_⟩
    intro d hd
    rw [hval]
    exact le_listMax (List.mem_map_of_mem _ hd)

/-- Witness for C1 at a concrete input. -/
theorem matcher_score_is_field_max_witness :
    (scoreIcon (fun _ _ => 1) "git" ⟨"github", ⟨["dev"], ["git"]⟩⟩).score =
      max (max (nameScore (fun _ _ => 1) "git" ⟨"github", ⟨["dev"], ["git"]⟩⟩)
            (aliasScore (fun _ _ => 1) "git" ⟨"github", ⟨["dev"], ["git"]⟩⟩))
        (categoryScore (fun _ _ => 1) "git" ⟨"github", ⟨["dev"], ["git"]⟩⟩) :=
  (matcher_score_is_field_max (fun _ _ => 1) "git" ⟨"github", ⟨["dev"], ["git"]⟩⟩ (by decide)).1

/-- Claim C6: when the fuzzy primitive stays inside `[0, 1]`, every score the
matcher computes stays inside `[0, 2]`. -/
theorem matcher_score_in_range (fuzzy : String → String → ℚ) (query : String) (r : Icon)
    (hf : ∀ s t, 0 ≤ fuzzy s t ∧ fuzzy s t ≤ 1) :
    0 ≤ (scoreIcon fuzzy query r).score ∧ (scoreIcon fuzzy query r).score ≤ 2 := by
  have key : ∀ l : List String, l.map (fun s => fuzzy s query) ≠ [] →
      0 ≤ listMax (l.map (fun s => fuzzy s query))
      ∧ listMax (l.map (fun s => fuzzy s query)) ≤ 1 := by
    intro l hne
    obtain ⟨s, _, heq⟩ := List.mem_map.1 (listMax_mem hne)
    rw [← heq]
    exact hf s query
  have hn0 : 0 ≤ nameScore fuzzy query r := by
    unfold nameScore
    have h := (hf r.name query).1
    nlinarith
  have hn2 : nameScore fuzzy query r ≤ 2 := by
    unfold nameScore
    have h := (hf r.name query).2
    nlinarith
  have ha : 0 ≤ aliasScore fuzzy query r ∧ aliasScore fuzzy query r ≤ 2 := by
    unfold aliasScore
    split_ifs with h
    · have hne : r.data.aliases.map (fun al => fuzzy al query) ≠ [] := by
        simpa using List.length_pos.1 h
      obtain ⟨h0, h1⟩ := key r.data.aliases hne
      constructor <;> nlinarith
    · norm_num
  have hc : 0 ≤ categoryScore fuzzy query r ∧ categoryScore fuzzy query r ≤ 2 := by
    unfold categoryScore
    split_ifs with h
    · have hne : r.data.categories.map (fun category => fuzzy category query) ≠ [] := by
        simpa using List.length_pos.1 h
      obtain ⟨h0, h1⟩ := key r.data.categories hne
      constructor <;> nlinarith
    · norm_num
  have hs : (scoreIcon fuzzy query r).score =
      qmax (qmax (nameScore fuzzy query r) (aliasScore fuzzy query r))
        (categoryScore fuzzy query r) := rfl
  rw [hs]
  constructor
  · exact le_trans hn0 (le_trans (le_qmax_left _ _) (le_qmax_left _ _))
  · exact qmax_le (qmax_le hn2 ha.2) hc.2

/-- Witness for C6 at a concrete input. -/
theorem matcher_score_in_range_witness :
    0 ≤ (scoreIcon (fun _ _ => 1) "git" ⟨"github", ⟨["dev"], ["git"]⟩⟩).score
    ∧ (scoreIcon (fun _ _ => 1) "git" ⟨"github", ⟨["dev"], ["git"]⟩⟩).score ≤ 2 :=
  matcher_score_in_range (fun _ _ => 1) "git" ⟨"github", ⟨["dev"], ["git"]⟩⟩
    (fun _ _ => by norm_num)

/-- Claim C7: `matchedField` names the field whose weighted score equals the
overall score, ties resolved in evaluation order name, alias, category. -/
theorem matcher_matched_field (fuzzy : String → String → ℚ) (query : String) (r : Icon)
    (hq : query ≠ "") :
    ((scoreIcon fuzzy query r).matchedField = "name"
      ∧ (scoreIcon fuzzy query r).score = nameScore fuzzy query r)
    ∨ ((scoreIcon fuzzy query r).matchedField = "alias"
      ∧ (scoreIcon fuzzy query r).score = aliasScore fuzzy query r
      ∧ (scoreIcon fuzzy query r).score ≠ nameScore fuzzy query r)
    ∨ ((scoreIcon fuzzy query r).matchedField = "category"
      ∧ (scoreIcon fuzzy query r).score = categoryScore fuzzy query r
      ∧ (scoreIcon fuzzy query r).score ≠ nameScore fuzzy query r
      ∧ (scoreIcon fuzzy query r).score ≠ aliasScore fuzzy query r) := by
  have hs : (scoreIcon fuzzy query r).score =
      qmax (qmax (nameScore fuzzy query r) (aliasScore fuzzy query r))
        (categoryScore fuzzy query r) := rfl
  have hmf : (scoreIcon fuzzy query r).matchedField =
      if qmax (qmax (nameScore fuzzy query r) (aliasScore fuzzy query r))
          (categoryScore fuzzy query r) = nameScore fuzzy query r then "name"
      else if qmax (qmax (nameScore fuzzy query r) (aliasScore fuzzy query r))
          (categoryScore fuzzy query r) = aliasScore fuzzy query r then "alias"
      else "category" := rfl
  by_cases h1 : qmax (qmax (nameScore fuzzy query r) (aliasScore fuzzy query r))
      (categoryScore fuzzy query r) = nameScore fuzzy query r
  · exact Or.inl ⟨by rw [hmf, if_pos h1], by rw [hs, h1]⟩
  · by_cases h2 : qmax (qmax (nameScore fuzzy query r) (aliasScore fuzzy query r))
        (categoryScore fuzzy query r) = aliasScore fuzzy query r
    · refine Or.inr (Or.inl ⟨by rw [hmf, if_neg h1, if_pos h2], by rw [hs, h2], ?_⟩)
      rw [hs]; exact h1
    · refine Or.inr (Or.inr ⟨by rw [hmf, if_neg h1, if_neg h2], ?_, by rw [hs]; exact h1,
        by rw [hs]; exact h2⟩)
      rw [hs]
      rcases qmax_choice (qmax (nameScore fuzzy query r) (aliasScore fuzzy query r))
          (categoryScore fuzzy query r) with h | h
      · exfalso
        rcases qmax_choice (nameScore fuzzy query r) (aliasScore fuzzy query r) with h' | h'
        · exact h1 (by rw [h, h'])
        · exact h2 (by rw [h, h'])
      · exact h

/-- Witness for C7 at a concrete input. -/
theorem matcher_matched_field_witness :
    ((scoreIcon (fun _ _ => 1) "git" ⟨"github", ⟨["dev"], ["git"]⟩⟩).matchedField = "name"
      ∧ (scoreIcon (fun _ _ => 1) "git" ⟨"github", ⟨["dev"], ["git"]⟩⟩).score =
          nameScore (fun _ _ => 1) "git" ⟨"github", ⟨["dev"], ["git"]⟩⟩)
    ∨ ((scoreIcon (fun _ _ => 1) "git" ⟨"github", ⟨["dev"], ["git"]⟩⟩).matchedField = "alias"
      ∧ (scoreIcon (fun _ _ => 1) "git" ⟨"github", ⟨["dev"], ["git"]⟩⟩).score =
          aliasScore (fun _ _ => 1) "git" ⟨"github", ⟨["dev"], ["git"]⟩⟩
      ∧ (scoreIcon (fun _ _ => 1) "git" ⟨"github", ⟨["dev"], ["git"]⟩⟩).score ≠
          nameScore (fun _ _ => 1) "git" ⟨"github", ⟨["dev"], ["git"]⟩⟩)
    ∨ ((scoreIcon (fun _ _ => 1) "git" ⟨"github", ⟨["dev"], ["git"]⟩⟩).matchedField = "category"
      ∧ (scoreIcon (fun _ _ => 1) "git" ⟨"github", ⟨["dev"], ["git"]⟩⟩).score =
          categoryScore (fun _ _ => 1) "git" ⟨"github", ⟨["dev"], ["git"]⟩⟩
      ∧ (scoreIcon (fun _ _ => 1) "git" ⟨"github", ⟨["dev"], ["git"]⟩⟩).score ≠
          nameScore (fun _ _ => 1) "git" ⟨"github", ⟨["dev"], ["git"]⟩⟩
      ∧ (scoreIcon (fun _ _ => 1) "git" ⟨"github", ⟨["dev"], ["git"]⟩⟩).score ≠
          aliasScore (fun _ _ => 1) "git" ⟨"github", ⟨["dev"], ["git"]⟩⟩) :=
  matcher_matched_field (fun _ _ => 1) "git" ⟨"github", ⟨["dev"], ["git"]⟩⟩ (by decide)

theorem scoredIcons_map_icon (fuzzy : String → String → ℚ) (iconList : List Icon)
    (query : String) :
    (scoredIcons fuzzy iconList query).map (fun item => item.icon) = iconList := by
  unfold scoredIcons
  rw [List.map_map]
  exact List.map_id' iconList

theorem subperm_map {α β : Type _} (f : α → β) {l₁ l₂ : List α} (h : List.Subperm l₁ l₂) :
    List.Subperm (l₁.map f) (l₂.map f) := by
  obtain ⟨s, hp, hs⟩ := h
  exact ⟨s.map f, hp.map f, hs.map f⟩

/-- Claim C10: every result record comes from the input list, no input
occurrence is duplicated (counts never increase), and the input list itself
is untouched — the result is a sub-permutation of the input. -/
theorem matcher_frame (fuzzy : String → String → ℚ) (iconList : List Icon) (query : String) :
    (∀ r ∈ getFilteredIcons fuzzy iconList query, r ∈ iconList)
    ∧ ∀ r : Icon, (getFilteredIcons fuzzy iconList query).count r ≤ iconList.count r := by
  have hsub : List.Subperm (getFilteredIcons fuzzy iconList query) iconList := by
    by_cases hq : query = ""
    · subst hq
      unfold getFilteredIcons
      rw [if_pos rfl]
      exact (List.take_sublist 8 iconList).subperm
    · unfold getFilteredIcons
      rw [if_neg hq]
      have h1 : List.Subperm ((((scoredIcons fuzzy iconList query).filter
            (fun item => decide ((0.3 : ℚ) < item.score))).insertionSort scoreLE).take 20)
          ((scoredIcons fuzzy iconList query).filter
            (fun item => decide ((0.3 : ℚ) < item.score))) :=
        (List.take_sublist 20 _).subperm.trans
          (List.perm_insertionSort scoreLE _).subperm
      have h2 : List.Subperm ((((scoredIcons fuzzy iconList query).filter
            (fun item => decide ((0.3 : ℚ) < item.score))).insertionSort scoreLE).take 20)
          (scoredIcons fuzzy iconList query) :=
        h1.trans (List.filter_sublist _).subperm
      have h3 := subperm_map (fun item => item.icon) h2
      rwa [scoredIcons_map_icon] at h3
  exact ⟨fun r hr => hsub.subset hr, fun r => hsub.count_le r⟩

/-- Claim C3, amended: every returned record scores above the threshold, and
whenever at most 20 input records score above the threshold, the threshold
alone decides membership (otherwise the cap at 20 can exclude a record whose
score still exceeds 0.3 — see the counterexample). -/
theorem matcher_threshold (fuzzy : String → String → ℚ) (iconList : List Icon)
    (query : String) (hq : query ≠ "") :
    (∀ r ∈ getFilteredIcons fuzzy iconList query,
        (0.3 : ℚ) < (scoreIcon fuzzy query r).score)
    ∧ ((iconList.filter
          (fun x => decide ((0.3 : ℚ) < (scoreIcon fuzzy query x).score))).length ≤ 20 →
        ∀ r : Icon, r ∈ getFilteredIcons fuzzy iconList query ↔
          r ∈ iconList ∧ (0.3 : ℚ) < (scoreIcon fuzzy query r).score) := by
  have hfm : (scoredIcons fuzzy iconList query).filter
      (fun item => decide ((0.3 : ℚ) < item.score)) =
      (iconList.filter
        (fun x => decide ((0.3 : ℚ) < (scoreIcon fuzzy query x).score))).map
        (scoreIcon fuzzy query) := by
    unfold scoredIcons
    rw [List.filter_map]
    rfl
  constructor
  · intro r hr
    unfold getFilteredIcons at hr
    rw [if_neg hq] at hr
    obtain ⟨item, hitem, rfl⟩ := List.mem_map.1 hr
    have hsort := List.mem_of_mem_take hitem
    have hfil := (List.mem_insertionSort scoreLE).1 hsort
    obtain ⟨hmem, hsc⟩ := List.mem_filter.1 hfil
    obtain ⟨r', _, rfl⟩ := List.mem_map.1 hmem
    rw [scoreIcon_icon]
    exact of_decide_eq_true hsc
  · intro hcap r
    have hlen : ((scoredIcons fuzzy iconList query).filter
        (fun item => decide ((0.3 : ℚ) < item.score))).length ≤ 20 := by
      rw [hfm, List.length_map]
      exact hcap
    have htake : (((scoredIcons fuzzy iconList query).filter
        (fun item => decide ((0.3 : ℚ) < item.score))).insertionSort scoreLE).take 20 =
        ((scoredIcons fuzzy iconList query).filter
          (fun item => decide ((0.3 : ℚ) < item.score))).insertionSort scoreLE :=
      List.take_of_length_le (by rw [List.length_insertionSort]; exact hlen)
    unfold getFilteredIcons
    rw [if_neg hq, htake]
    have hperm := (List.perm_insertionSort scoreLE ((scoredIcons fuzzy iconList query).filter
      (fun item => decide ((0.3 : ℚ) < item.score)))).map (fun item => item.icon)
    rw [hperm.mem_iff, hfm, List.map_map]
    have hid : ((fun item : ScoredIcon => item.icon) ∘ scoreIcon fuzzy query) =
        fun x : Icon => x := rfl
    rw [hid, List.map_id', List.mem_filter]
    simp only [decide_eq_true_eq]

/-- Witness for the amended C3 at a concrete input: the threshold admits the
single matching record. -/
theorem matcher_threshold_witness :
    (⟨"github", ⟨["dev"], ["git"]⟩⟩ : Icon) ∈
      getFilteredIcons (fun _ _ => 1) [⟨"github", ⟨["dev"], ["git"]⟩⟩] "git" := by
  refine ((matcher_threshold (fun _ _ => 1) [⟨"github", ⟨["dev"], ["git"]⟩⟩] "git"
    (by decide)).2 (le_trans (List.length_filter_le _ _) (by norm_num))
    ⟨"github", ⟨["dev"], ["git"]⟩⟩).mpr ⟨List.mem_singleton.2 rfl, ?_⟩
  norm_num [scoreIcon, nameScore, aliasScore, categoryScore, listMax, qmax]


theorem scoreIcon_one_plain (query s : String) :
    scoreIcon (fun _ _ => 1) query ⟨s, ⟨[], []⟩⟩ = ⟨⟨s, ⟨[], []⟩⟩, 2, "name"⟩ := by
  unfold scoreIcon nameScore aliasScore categoryScore
  norm_num [qmax]

theorem cex_eval :
    getFilteredIcons (fun _ _ => 1) cexIcons "x" =
      (cexNames.take 20).map (fun s => ⟨s, ⟨[], []⟩⟩) := by
  unfold getFilteredIcons
  rw [if_neg (by decide)]
  have h1 : scoredIcons (fun _ _ => 1) cexIcons "x" =
      cexNames.map (fun s => (⟨⟨s, ⟨[], []⟩⟩, 2, "name"⟩ : ScoredIcon)) := by
    unfold scoredIcons cexIcons
    rw [List.map_map]
    exact List.map_congr_left (fun s _ => scoreIcon_one_plain "x" s)
  rw [h1]
  have h2 : (cexNames.map (fun s => (⟨⟨s, ⟨[], []⟩⟩, 2, "name"⟩ : ScoredIcon))).filter
      (fun item => decide ((0.3 : ℚ) < item.score)) =
      cexNames.map (fun s => (⟨⟨s, ⟨[], []⟩⟩, 2, "name"⟩ : ScoredIcon)) := by
    rw [List.filter_eq_self]
    intro a ha
    obtain ⟨s, _, rfl⟩ := List.mem_map.1 ha
    norm_num
  rw [h2]
  have h3 : (cexNames.map (fun s => (⟨⟨s, ⟨[], []⟩⟩, 2, "name"⟩ : ScoredIcon))).insertionSort
      scoreLE = cexNames.map (fun s => (⟨⟨s, ⟨[], []⟩⟩, 2, "name"⟩ : ScoredIcon)) := by
    refine List.Sorted.insertionSort_eq ?_
    refine List.pairwise_map.2 ?_
    exact List.pairwise_of_forall (fun a b => le_refl (2 : ℚ))
  rw [h3, ← List.map_take, List.map_map]
  rfl

/-- Claim C3 as stated is false: with 21 records all scoring 2 (> 0.3), the
cap at 20 results drops the last record even though its score exceeds the
threshold, refuting the "if" direction of the claimed equivalence. -/
theorem matcher_threshold_counterexample :
    (⟨"u", ⟨[], []⟩⟩ : Icon) ∈ cexIcons
    ∧ ("x" : String) ≠ ""
    ∧ (0.3 : ℚ) < (scoreIcon (fun _ _ => 1) "x" (⟨"u", ⟨[], []⟩⟩ : Icon)).score
    ∧ (⟨"u", ⟨[], []⟩⟩ : Icon) ∉ getFilteredIcons (fun _ _ => 1) cexIcons "x" := by
  refine ⟨by decide, by decide, ?_, ?_⟩
  · rw [scoreIcon_one_plain]
    norm_num
  · rw [cex_eval]
    decide

theorem gh_result_eval :
    getFilteredIcons (fun _ _ => 1) [⟨"github", ⟨["dev"], ["git"]⟩⟩] "git" =
      [⟨"github", ⟨["dev"], ["git"]⟩⟩] := by
  unfold getFilteredIcons
  rw [if_neg (by decide)]
  have h0 : scoreIcon (fun _ _ => 1) "git" ⟨"github", ⟨["dev"], ["git"]⟩⟩ =
      ⟨⟨"github", ⟨["dev"], ["git"]⟩⟩, 2, "name"⟩ := by
    norm_num [scoreIcon, nameScore, aliasScore, categoryScore, listMax, qmax]
  have h1 : scoredIcons (fun _ _ => 1) [⟨"github", ⟨["dev"], ["git"]⟩⟩] "git" =
      [⟨⟨"github", ⟨["dev"], ["git"]⟩⟩, 2, "name"⟩] := by
    unfold scoredIcons
    rw [List.map_cons, List.map_nil, h0]
  rw [h1]
  have h2 : ([⟨⟨"github", ⟨["dev"], ["git"]⟩⟩, 2, "name"⟩] : List ScoredIcon).filter
      (fun item => decide ((0.3 : ℚ) < item.score)) =
      [⟨⟨"github", ⟨["dev"], ["git"]⟩⟩, 2, "name"⟩] := by
    rw [List.filter_eq_self]
    intro a ha
    rw [List.mem_singleton.1 ha]
    norm_num
  rw [h2]
  rfl

/-- Witness for C10 at a concrete input. -/
theorem matcher_frame_witness :
    (⟨"github", ⟨["dev"], ["git"]⟩⟩ : Icon) ∈ [(⟨"github", ⟨["dev"], ["git"]⟩⟩ : Icon)] :=
  (matcher_frame (fun _ _ => 1) [⟨"github", ⟨["dev"], ["git"]⟩⟩] "git").1
    ⟨"github", ⟨["dev"], ["git"]⟩⟩ (by rw [gh_result_eval]; exact List.mem_singleton.2 rfl)
